import Mathlib

/-!
Verification development for the workbench workspace manager.

The definitions below are a shallow embedding of the reconciliation code:
`src/i3.service.ts` (tree query and traversal), `src/service.ts` (the
`selectWorkspace`, `openApp` and `sync` operations) and
`src/tools/chrome/chrome.ts` (the tab HTTP server).  External effects
(i3 queries, process launches, file writes) are made explicit: successive
`getTree()` results are an environment stream `Nat → TreeNode`, and every
fire-and-forget command is recorded as an `Event` in a trace.
-/

namespace Workbench

/-- One node of the i3 tree as parsed from `i3-msg -t get_tree`.  Only the
fields the code reads are kept: `id`, `window_properties.class` (absent on
non-window containers, hence `Option`), `nodes` and `floating_nodes`. -/
inductive TreeNode where
  | mk (id : Nat) (windowClass : Option String)
      (nodes : List TreeNode) (floatingNodes : List TreeNode)

mutual

/-- `i3.service.ts findNodeIdsByClass`: depth-first traversal that pushes the
node's own `id` when `window_properties.class` equals the class, then recurses
into `nodes` and then into `floating_nodes`, in order. -/
def findNodeIdsByClass : TreeNode → String → List Nat
  | TreeNode.mk i cls ns fs, className =>
      (if cls = some className then [i] else []) ++
        findNodeIdsByClassList ns className ++ findNodeIdsByClassList fs className

/-- `node.nodes.forEach(traverse)` over a list of children. -/
def findNodeIdsByClassList : List TreeNode → String → List Nat
  | [], _ => []
  | t :: ts, c => findNodeIdsByClass t c ++ findNodeIdsByClassList ts c

end

/-- `service.ts App<T>`: `name`, `i3Workspace`, and the optional `i3WindowId`
that distinguishes `OpenedApp` (`"i3WindowId" in app`).  The kind-specific
`data` payload is typed `any` and never read or written by the operations
modelled here, so it is omitted. -/
structure App where
  name : String
  i3Workspace : String
  i3WindowId : Option Nat
deriving DecidableEq

/-- `service.ts isOpened`: the `i3WindowId` property is present. -/
def App.opened (app : App) : Bool := app.i3WindowId.isSome

/-- `service.ts Workspace`. -/
structure Workspace where
  name : String
  isOpened : Bool
  apps : List App
deriving DecidableEq

/-- Observable side effects of one operation, in program order. -/
inductive Event where
  | launch (appName : String)          -- `launchApp(app)` (spawns the browser)
  | moveScratch (windowId : Nat)       -- `I3Service.moveWindowToScratchPad`
  | moveWs (windowId : Nat) (workspace : String)  -- `I3Service.moveToWindowWorkspace`
  | save                               -- `saveToFs(workspaces)`
  | logExpectedOpened (found : Nat)    -- `console.log("Expected 1 opened workspace, found", n)`
  | syncApp (appName : String)         -- `syncApp(app)` (updates `data.urls` only)
deriving DecidableEq

/-- Thrown errors.  `tooManyNewWindows` is `"Too many new i3 windows"` (the
spec's AmbiguousWindowError), `noNewWindows` is `"No new i3 windows"` (the
spec's NoNewWindowError), and `undefinedDeref` is the TypeError raised by
reading `.apps` of `undefined`. -/
inductive Err where
  | tooManyNewWindows
  | noNewWindows
  | undefinedDeref
deriving DecidableEq

deriving instance DecidableEq for Except

/-- Execution state threaded through an operation: how many `getTree()` calls
have been made so far (`qIdx` indexes the environment stream) and the trace of
emitted commands. -/
structure St where
  qIdx : Nat
  trace : List Event
deriving DecidableEq

/-- JavaScript truthiness of the value returned by `Array.prototype.find` on a
list of numbers: `undefined` and the number `0` are falsy. -/
def truthy : Option Nat → Bool
  | none => false
  | some n => n != 0

/-- `nextWindowIds.filter((w) => !prevWindowIds.includes(w))`: the window ids
that appeared since the pre-launch snapshot. -/
def newWindowsOf (prevWindowIds nextWindowIds : List Nat) : List Nat :=
  nextWindowIds.filter (fun w => !(prevWindowIds.contains w))

/-- Second half of `service.ts openApp`, from the `launchApp` call on: launch
when the app is chrome, re-query the tree, `newWindows = next.filter(w =>
!prev.includes(w))`, throw on `length > 1`, throw on `length === 0`, else
record `newWindows[0]` as the app's `i3WindowId`. -/
def openAppRest (env : Nat → TreeNode) (s : St) (app : App) (prevWindowIds : List Nat) :
    St × Except Err App :=
  let s1 : St :=
    if app.name == "chrome" then { s with trace := s.trace ++ [Event.launch app.name] } else s
  let t1 := env s1.qIdx
  let s2 : St := { s1 with qIdx := s1.qIdx + 1 }
  let nextWindowIds := findNodeIdsByClass t1 "Chromium"
  let newWindows := newWindowsOf prevWindowIds nextWindowIds
  if newWindows.length > 1 then (s2, Except.error Err.tooManyNewWindows)
  else
    match newWindows with
    | [] => (s2, Except.error Err.noNewWindows)
    | w :: _ => (s2, Except.ok { app with i3WindowId := some w })

/-- `service.ts openApp`: snapshot `prevWindowIds` from a fresh tree query; if
the app has an `i3WindowId`, test `prevWindowIds.find(w => w == app.i3WindowId)`
for truthiness (so the found value `0` counts as not found) and reuse the app
unchanged when truthy; otherwise clear the stale id (`i3WindowId = undefined`)
and fall through to launch and discovery (`openAppRest`). -/
def openApp (env : Nat → TreeNode) (s : St) (app : App) : St × Except Err App :=
  let t0 := env s.qIdx
  let s0 : St := { s with qIdx := s.qIdx + 1 }
  let prevWindowIds := findNodeIdsByClass t0 "Chromium"
  match app.i3WindowId with
  | some wid =>
      let isActuallyOpened := prevWindowIds.find? (fun w => w == wid)
      if truthy isActuallyOpened then (s0, Except.ok app)
      else openAppRest env s0 { app with i3WindowId := none } prevWindowIds
  | none => openAppRest env s0 app prevWindowIds

/-- Outcome of `service.ts selectWorkspace`.  The function itself returns
`undefined` in JavaScript; the constructors record which exit was taken and
what in-memory workspace list was live at that exit.  Only `saved` passes
through `saveToFs`. -/
inductive SelectResult where
  | notFound                                  -- target name not in the list; console.error, return
  | earlyReturn (workspaces : List Workspace) -- `return` inside the stow loop (nothing saved)
  | failed (e : Err)                          -- an exception from `openApp` propagates
  | saved (workspaces : List Workspace)       -- reached `saveToFs(workspaces)`
deriving DecidableEq

/-- `Array.prototype.find` together with the index of the found element, so
that in-place mutation of the found object can be modelled as `List.set` at
that index. -/
def findWithIdx (p : α → Bool) : List α → Option (Nat × α)
  | [] => none
  | a :: as => if p a then some (0, a) else (findWithIdx p as).map (fun ia => (ia.1 + 1, ia.2))

/-- The stow loop of `selectWorkspace`: for each app of the previously opened
workspace, `return` as soon as one has no `i3WindowId`, else issue
`moveWindowToScratchPad(app.i3WindowId)`.  The boolean is `true` when the loop
ran to completion. -/
def stowLoop (s : St) : List App → St × Bool
  | [] => (s, true)
  | app :: rest =>
    match app.i3WindowId with
    | none => (s, false)
    | some wid => stowLoop { s with trace := s.trace ++ [Event.moveScratch wid] } rest

/-- The assemble loop of `selectWorkspace`: each app is replaced in place by
`openApp`'s result (aliasing: the array element is the mutated object), then
`moveToWindowWorkspace(openedApp.i3WindowId, openedApp.i3Workspace)` is issued;
a thrown error aborts the loop. -/
def assembleLoop (env : Nat → TreeNode) (s : St) : List App → St × Except Err (List App)
  | [] => (s, Except.ok [])
  | app :: rest =>
    match openApp env s app with
    | (s1, Except.error e) => (s1, Except.error e)
    | (s1, Except.ok opened) =>
      let s2 : St :=
        { s1 with trace := s1.trace ++ [Event.moveWs (opened.i3WindowId.getD 0) opened.i3Workspace] }
      match assembleLoop env s2 rest with
      | (s3, Except.error e) => (s3, Except.error e)
      | (s3, Except.ok rest1) => (s3, Except.ok (opened :: rest1))

/-- Second half of `selectWorkspace`, from `workspace.isOpened = true` on:
mark the target opened, run the assemble loop over its apps (mutating them in
place), and on success `saveToFs` the updated list.  The target index is known
to be in range (it came from `find`); out-of-range access yields a dummy. -/
def assembleStage (env : Nat → TreeNode) (s : St) (workspaces : List Workspace)
    (ti : Nat) : St × SelectResult :=
  let w := (workspaces.get? ti).getD ⟨"", false, []⟩
  let w1 : Workspace := { w with isOpened := true }
  let workspaces2 := workspaces.set ti w1
  match assembleLoop env s w1.apps with
  | (s1, Except.error e) => (s1, SelectResult.failed e)
  | (s1, Except.ok apps1) =>
    let workspaces3 := workspaces2.set ti { w1 with apps := apps1 }
    ({ s1 with trace := s1.trace ++ [Event.save] }, SelectResult.saved workspaces3)

/-- `service.ts selectWorkspace`: find the target by name (else report and
return); find the currently opened workspace, and if there is one set its
`isOpened = false` and run the stow loop over its apps, `return`ing early from
inside that loop if an app has no window id; then mark the target opened,
assemble each of its apps, and persist. -/
def selectWorkspace (env : Nat → TreeNode) (workspaces : List Workspace)
    (workspaceName : String) : St × SelectResult :=
  match findWithIdx (fun w => w.name == workspaceName) workspaces with
  | none => (⟨0, []⟩, SelectResult.notFound)
  | some (ti, _) =>
    match findWithIdx (fun w => w.isOpened) workspaces with
    | none => assembleStage env ⟨0, []⟩ workspaces ti
    | some (oi, wO) =>
      let workspaces1 := workspaces.set oi { wO with isOpened := false }
      match stowLoop ⟨0, []⟩ wO.apps with
      | (s, false) => (s, SelectResult.earlyReturn workspaces1)
      | (s, true) => assembleStage env s workspaces1 ti

/-- The window ids of a workspace's opened apps, in order. -/
def trackedIds (w : Workspace) : List Nat := w.apps.filterMap (fun a => a.i3WindowId)

/-- `service.ts sync`: filter the opened workspaces; when the count is not 1,
only log it; then read `openedWorkspaces[0].apps` — a TypeError when the filter
came back empty — and `syncApp` every chrome app (which rewrites only
`app.data.urls`, a field outside the modelled state); finally `saveToFs`. -/
def sync (workspaces : List Workspace) : List Event × Except Err (List Workspace) :=
  let openedWorkspaces := workspaces.filter (fun w => w.isOpened)
  let evs :=
    if openedWorkspaces.length != 1 then [Event.logExpectedOpened openedWorkspaces.length]
    else []
  match openedWorkspaces with
  | [] => (evs, Except.error Err.undefinedDeref)
  | w :: _ =>
    let evs2 := evs ++ (w.apps.filter (fun a => a.name == "chrome")).map
      (fun a => Event.syncApp a.name)
    (evs2 ++ [Event.save], Except.ok workspaces)

/-- The tab payload POSTed by the companion extension:
`Record<chromeWindowId, url[]>`. -/
abbrev TabsMessage := List (String × List String)

/-- The `POST /tabs` branch of the fetch handler in `tools/chrome/chrome.ts`:
when a mapping is already held (`if (tabs)`) answer `"OK"` without reading the
body; otherwise store the received mapping and answer `"OK"`. -/
def tabsPostHandler (tabs : Option TabsMessage) (receivedTabs : TabsMessage) :
    Option TabsMessage × String :=
  match tabs with
  | some t => (some t, "OK")
  | none => (some receivedTabs, "OK")

/-- Value of the server's `tabs` variable after `n` sleeps of the
`GET /get-tabs` branch, which first sets `tabs = null` and then runs
`while (!tabs) await sleep(200)`.  `push i` is the payload POSTed to `/tabs`
during sleep `i` (if any), handled by `tabsPostHandler`.  The loop exits at the
first `n` where the value is non-null, and the response is that value
(`tabs ?? {}`). -/
def tabsVarAfter (push : Nat → Option TabsMessage) : Nat → Option TabsMessage
  | 0 => none
  | n + 1 =>
    match push n with
    | some m => (tabsPostHandler (tabsVarAfter push n) m).1
    | none => tabsVarAfter push n

/-! Concrete fixtures used by witnesses and counterexamples. -/

/-- A Chromium window leaf with the given i3 container id. -/
def winNode (i : Nat) : TreeNode := TreeNode.mk i (some "Chromium") [] []

/-- An i3 root container holding the given child nodes. -/
def rootNode (wins : List TreeNode) : TreeNode := TreeNode.mk 0 none wins []

/-- Environment stream whose every `getTree()` answer is `t`. -/
def envConst (t : TreeNode) : Nat → TreeNode := fun _ => t

/-- Environment stream answering `a` to the first `getTree()` and `b` to all
later ones. -/
def env2 (a b : TreeNode) : Nat → TreeNode := fun n => if n = 0 then a else b

/-- Environment stream answering `a`, then `b`, then `c` forever. -/
def env3 (a b c : TreeNode) : Nat → TreeNode :=
  fun n => if n = 0 then a else if n = 1 then b else c

/-- A chrome app that has never been assembled (no tracked window id). -/
def freshChrome : App := ⟨"chrome", "3", none⟩

/-! Helper lemmas about the embedded operations. -/

/-- `Array.prototype.find` over number ids, looking for `wid` itself: when
`wid` is in the list the found value is `wid`. -/
theorem find_self_of_mem {l : List Nat} {wid : Nat} (h : wid ∈ l) :
    l.find? (fun w => w == wid) = some wid := by
  induction l with
  | nil => cases h
  | cons a t ih =>
    rcases List.mem_cons.mp h with rfl | ht
    · simp [List.find?]
    · by_cases ha : a = wid
      · subst ha; simp [List.find?]
      · have hne : (a == wid) = false := by simpa using ha
        simp only [List.find?, hne]
        exact ih ht

/-- `find?` misses when the sought id is absent. -/
theorem find_none_of_not_mem {l : List Nat} {wid : Nat} (h : wid ∉ l) :
    l.find? (fun w => w == wid) = none := by
  apply List.find?_eq_none.mpr
  intro x hx
  simp only [beq_iff_eq]
  rintro rfl
  exact h hx

/-- `findWithIdx` returns a valid index/element pair satisfying the predicate. -/
theorem findWithIdx_spec {α : Type} {p : α → Bool} {l : List α} {i : Nat} {a : α}
    (h : findWithIdx p l = some (i, a)) : l.get? i = some a ∧ p a = true := by
  induction l generalizing i with
  | nil => simp [findWithIdx] at h
  | cons x xs ih =>
    simp only [findWithIdx] at h
    split at h
    · cases h
      exact ⟨rfl, by assumption⟩
    · cases hf : findWithIdx p xs with
      | none => rw [hf] at h; cases h
      | some ia =>
        rw [hf] at h
        cases ia with
        | mk j b =>
          cases h
          obtain ⟨hg, hp⟩ := ih hf
          exact ⟨by simpa using hg, hp⟩

/-- Writing back the element already stored at an index is a no-op. -/
theorem set_self_of_get? {α : Type} {l : List α} {i : Nat} {a : α} (h : l.get? i = some a) :
    l.set i a = l := by
  induction l generalizing i with
  | nil => rfl
  | cons x xs ih =>
    cases i with
    | zero =>
      simp only [List.get?] at h
      cases h
      rfl
    | succ n =>
      simp only [List.get?] at h
      simp only [List.set]
      rw [ih h]

/-- Reading back an in-range `set`. -/
theorem get?_set_self {α : Type} {l : List α} {i : Nat} {a b : α} (h : l.get? i = some a) :
    (l.set i b).get? i = some b := by
  induction l generalizing i with
  | nil => simp at h
  | cons x xs ih =>
    cases i with
    | zero => rfl
    | succ n =>
      simp only [List.get?] at h ⊢
      exact ih h

/-- A completed stow loop emits exactly the scratchpad moves of the tracked
window ids, in order. -/
theorem stowLoop_complete (s : St) (apps : List App)
    (h : ∀ a ∈ apps, a.i3WindowId.isSome) :
    stowLoop s apps =
      ({ s with trace :=
          s.trace ++ (apps.filterMap (fun a => a.i3WindowId)).map Event.moveScratch }, true) := by
  induction apps generalizing s with
  | nil => simp [stowLoop]
  | cons a rest ih =>
    obtain ⟨wid, hwid⟩ := Option.isSome_iff_exists.mp (h a (by simp))
    simp only [stowLoop, hwid]
    rw [ih _ (fun x hx => h x (by simp [hx]))]
    simp [hwid, List.append_assoc]

/-- A stow loop that hits an app with no tracked id stops there: it emits the
moves of the earlier apps and reports `false` (the JS `return`). -/
theorem stowLoop_early (s : St) (pre : List App) (bad : App) (post : List App)
    (hpre : ∀ a ∈ pre, a.i3WindowId.isSome) (hbad : bad.i3WindowId = none) :
    stowLoop s (pre ++ bad :: post) =
      ({ s with trace :=
          s.trace ++ (pre.filterMap (fun a => a.i3WindowId)).map Event.moveScratch }, false) := by
  induction pre generalizing s with
  | nil => simp [stowLoop, hbad]
  | cons a pre ih =>
    obtain ⟨wid, hwid⟩ := Option.isSome_iff_exists.mp (hpre a (by simp))
    simp only [List.cons_append, stowLoop, hwid, List.append_eq]
    rw [ih _ (fun x hx => hpre x (by simp [hx]))]
    simp [hwid, List.append_assoc]

/-- Whatever the stow loop does, its new trace entries are scratchpad moves of
tracked ids of its input apps. -/
theorem stowLoop_events {s : St} {apps : List App} {s1 : St} {b : Bool}
    (h : stowLoop s apps = (s1, b)) :
    ∃ evs, s1.trace = s.trace ++ evs ∧
      ∀ e ∈ evs, ∃ wid, wid ∈ apps.filterMap (fun a => a.i3WindowId) ∧
        e = Event.moveScratch wid := by
  induction apps generalizing s with
  | nil =>
    simp only [stowLoop] at h
    cases h
    exact ⟨[], by simp, by simp⟩
  | cons a rest ih =>
    simp only [stowLoop] at h
    cases ha : a.i3WindowId with
    | none =>
      rw [ha] at h
      cases h
      exact ⟨[], by simp, by simp⟩
    | some wid =>
      rw [ha] at h
      obtain ⟨evs, h1, hk⟩ := ih h
      refine ⟨Event.moveScratch wid :: evs, ?_, ?_⟩
      · rw [h1]; simp
      · intro e he
        rcases List.mem_cons.mp he with rfl | hmem
        · exact ⟨wid, by simp [ha], rfl⟩
        · obtain ⟨w2, hw2, he2⟩ := hk e hmem
          exact ⟨w2, by simp [ha, hw2], he2⟩

/-- `openAppRest` always comes back with one more query consumed and exactly a
possible launch appended to the trace. -/
theorem openAppRest_state (env : Nat → TreeNode) (s : St) (app : App) (prev : List Nat) :
    (openAppRest env s app prev).1 =
      ⟨s.qIdx + 1, s.trace ++ (if app.name == "chrome" then [Event.launch app.name] else [])⟩ := by
  simp only [openAppRest]
  cases hc : (app.name == "chrome") <;>
    simp only [hc, Bool.false_eq_true, if_false, if_true] <;>
    split <;> (try split) <;> simp

/-- The events of a possibly-taken launch branch are launch events. -/
theorem launch_branch_events (nm : String) (e : Event)
    (he : e ∈ (if (nm == "chrome") = true then [Event.launch nm] else [])) :
    ∃ nm2, e = Event.launch nm2 := by
  split at he <;> simp at he
  exact ⟨nm, he⟩

/-- `openAppRest` only ever appends launch events to the trace. -/
theorem openAppRest_trace {env : Nat → TreeNode} {s : St} {app : App} {prev : List Nat}
    {s1 : St} {r : Except Err App} (h : openAppRest env s app prev = (s1, r)) :
    ∃ evs, s1.trace = s.trace ++ evs ∧ ∀ e ∈ evs, ∃ nm, e = Event.launch nm := by
  have hst := openAppRest_state env s app prev
  rw [h] at hst
  refine ⟨if (app.name == "chrome") = true then [Event.launch app.name] else [], ?_, ?_⟩
  · simpa using congrArg St.trace hst
  · exact launch_branch_events app.name

/-- `openApp` only ever appends launch events to the trace. -/
theorem openApp_trace {env : Nat → TreeNode} {s : St} {app : App} {s1 : St}
    {r : Except Err App} (h : openApp env s app = (s1, r)) :
    ∃ evs, s1.trace = s.trace ++ evs ∧ ∀ e ∈ evs, ∃ nm, e = Event.launch nm := by
  simp only [openApp] at h
  cases ha : app.i3WindowId with
  | some wid =>
    simp only [ha] at h
    cases htr : truthy (List.find? (fun w => w == wid)
        (findNodeIdsByClass (env s.qIdx) "Chromium"))
    · rw [htr] at h
      simp only [Bool.false_eq_true, if_false] at h
      obtain ⟨evs, he, hk⟩ := openAppRest_trace h
      exact ⟨evs, by simpa using he, hk⟩
    · rw [htr] at h
      simp only [if_true] at h
      cases h
      exact ⟨[], by simp, by simp⟩
  | none =>
    simp only [ha] at h
    obtain ⟨evs, he, hk⟩ := openAppRest_trace h
    exact ⟨evs, by simpa using he, hk⟩

/-- `assembleLoop` only ever appends launch and move-to-workspace events. -/
theorem assembleLoop_trace {env : Nat → TreeNode} {apps : List App} {s s1 : St}
    {r : Except Err (List App)} (h : assembleLoop env s apps = (s1, r)) :
    ∃ evs, s1.trace = s.trace ++ evs ∧
      ∀ e ∈ evs, (∃ nm, e = Event.launch nm) ∨ (∃ i w, e = Event.moveWs i w) := by
  induction apps generalizing s s1 r with
  | nil =>
    simp only [assembleLoop] at h
    cases h
    exact ⟨[], by simp, by simp⟩
  | cons a rest ih =>
    simp only [assembleLoop] at h
    split at h
    · rename_i sA e heq
      obtain ⟨evs1, he1, hk1⟩ := openApp_trace heq
      cases h
      exact ⟨evs1, he1, fun e he => Or.inl (hk1 e he)⟩
    · rename_i sA opened heq
      obtain ⟨evs1, he1, hk1⟩ := openApp_trace heq
      split at h
      all_goals rename_i s3 x heq2
      all_goals obtain ⟨evs2, he2, hk2⟩ := ih heq2
      all_goals cases h
      all_goals refine ⟨evs1 ++ Event.moveWs (opened.i3WindowId.getD 0) opened.i3Workspace ::
        evs2, ?_, ?_⟩
      all_goals try
        (intro e he
         rcases List.mem_append.mp he with hl | hr
         · exact Or.inl (hk1 e hl)
         · rcases List.mem_cons.mp hr with rfl | hm
           · exact Or.inr ⟨_, _, rfl⟩
           · exact hk2 e hm)
      all_goals rw [he2]; simp [he1, List.append_assoc]

/-- A failed `assembleStage` appends only launch and move-to-workspace events —
in particular no `save` and no scratchpad move. -/
theorem assembleStage_failed_events {env : Nat → TreeNode} {s : St}
    {workspaces : List Workspace} {ti : Nat} {s1 : St} {e : Err}
    (h : assembleStage env s workspaces ti = (s1, SelectResult.failed e)) :
    ∃ evs, s1.trace = s.trace ++ evs ∧
      ∀ ev ∈ evs, (∃ nm, ev = Event.launch nm) ∨ (∃ i w, ev = Event.moveWs i w) := by
  simp only [assembleStage] at h
  split at h
  · cases h
    exact assembleLoop_trace (by assumption)
  · cases h

/-- Any `assembleStage` run only extends the trace it was given. -/
theorem assembleStage_extends {env : Nat → TreeNode} {s : St}
    {workspaces : List Workspace} {ti : Nat} {s1 : St} {r : SelectResult}
    (h : assembleStage env s workspaces ti = (s1, r)) :
    ∃ evs, s1.trace = s.trace ++ evs := by
  simp only [assembleStage] at h
  split at h
  · cases h
    obtain ⟨evs, he, _⟩ := assembleLoop_trace (by assumption)
    exact ⟨evs, he⟩
  · cases h
    rename_i sA apps1 heq
    obtain ⟨evs, he, _⟩ := assembleLoop_trace heq
    exact ⟨evs ++ [Event.save], by simp [he]⟩

/-! ### C1 — window-discovery diff semantics -/

/-- C1: for every pair of window-id snapshots taken before and after a launch
(the first two `getTree()` answers of the environment), `openApp` computes
`diff = after \ before`; an empty diff fails with the no-new-window error, a
diff with more than one element fails with the ambiguous-window error, and a
singleton diff `[d]` makes `d` the app's tracked `i3WindowId`. -/
theorem C1_window_discovery_diff (env : Nat → TreeNode) (app : App)
    (hfresh : app.i3WindowId = none) (hchrome : app.name = "chrome") :
    (newWindowsOf (findNodeIdsByClass (env 0) "Chromium")
        (findNodeIdsByClass (env 1) "Chromium") = [] →
      (openApp env ⟨0, []⟩ app).2 = Except.error Err.noNewWindows) ∧
    ((newWindowsOf (findNodeIdsByClass (env 0) "Chromium")
        (findNodeIdsByClass (env 1) "Chromium")).length > 1 →
      (openApp env ⟨0, []⟩ app).2 = Except.error Err.tooManyNewWindows) ∧
    (∀ d, newWindowsOf (findNodeIdsByClass (env 0) "Chromium")
        (findNodeIdsByClass (env 1) "Chromium") = [d] →
      (openApp env ⟨0, []⟩ app).2 = Except.ok { app with i3WindowId := some d }) := by
  have hopen : openApp env ⟨0, []⟩ app =
      openAppRest env ⟨1, []⟩ app (findNodeIdsByClass (env 0) "Chromium") := by
    simp [openApp, hfresh]
  refine ⟨?_, ?_, ?_⟩
  · intro h
    rw [hopen]
    simp [openAppRest, hchrome, h]
  · intro h
    rw [hopen]
    simp [openAppRest, hchrome, h]
  · intro d h
    rw [hopen]
    simp [openAppRest, hchrome, h]

/-- Witness for C1, instantiating the spec's own example: `before = {1,2}`,
`after = {1,2,3}` yields tracked id `3`. -/
theorem C1_window_discovery_diff_witness :
    (freshChrome.i3WindowId = none ∧ freshChrome.name = "chrome") ∧
    (newWindowsOf
        (findNodeIdsByClass (env2 (rootNode [winNode 1, winNode 2])
          (rootNode [winNode 1, winNode 2, winNode 3]) 0) "Chromium")
        (findNodeIdsByClass (env2 (rootNode [winNode 1, winNode 2])
          (rootNode [winNode 1, winNode 2, winNode 3]) 1) "Chromium") = [3] →
      (openApp (env2 (rootNode [winNode 1, winNode 2])
          (rootNode [winNode 1, winNode 2, winNode 3])) ⟨0, []⟩ freshChrome).2 =
        Except.ok { freshChrome with i3WindowId := some 3 }) := by
  refine ⟨⟨rfl, rfl⟩, ?_⟩
  exact (C1_window_discovery_diff
    (env2 (rootNode [winNode 1, winNode 2]) (rootNode [winNode 1, winNode 2, winNode 3]))
    freshChrome rfl rfl).2.2 3

/-! ### C2 — tab-snapshot freshness and (claimed) bounded wait -/

/-- With no push arriving after the reset, the server's `tabs` variable stays
`null` at every poll step. -/
theorem tabsVarAfter_noPush (n : Nat) : tabsVarAfter (fun _ => none) n = none := by
  induction n with
  | zero => rfl
  | succ n ih => simpa [tabsVarAfter] using ih

/-- A `tabs` variable still `null` after `n` steps means no push arrived in the
first `n` sleeps. -/
theorem tabsVarAfter_none_pushes {push : Nat → Option TabsMessage} {n : Nat}
    (h : tabsVarAfter push n = none) : ∀ j, j < n → push j = none := by
  induction n with
  | zero => intro j hj; omega
  | succ n ih =>
    intro j hj
    cases hp : push n with
    | some m =>
      simp only [tabsVarAfter, hp] at h
      cases hv : tabsVarAfter push n <;> rw [hv] at h <;> simp [tabsPostHandler] at h
    | none =>
      simp only [tabsVarAfter, hp] at h
      rcases Nat.lt_succ_iff_lt_or_eq.mp hj with hlt | rfl
      · exact ih h j hlt
      · exact hp

/-- C2 counterexample: the `GET /get-tabs` wait loop has no timeout.  On the
run where no push ever arrives, the `tabs` variable never becomes non-null, so
the `while (!tabs)` loop never exits and the handler never returns — in
particular it never returns the empty mapping the claim promises after a
timeout. -/
theorem C2_no_timeout_counterexample :
    ¬ ∃ n, (tabsVarAfter (fun _ => none) n).isSome = true := by
  rintro ⟨n, hn⟩
  rw [tabsVarAfter_noPush n] at hn
  simp at hn

/-- C2 as amended: the `/get-tabs` handler clears the mapping and then polls at
a fixed 200ms interval with no timeout; when the loop does exit with mapping
`t` after `n` sleeps, `t` is exactly the first push received after the reset
(never a pre-reset mapping). -/
theorem C2_fresh_push_only (push : Nat → Option TabsMessage) (n : Nat) (t : TabsMessage)
    (h : tabsVarAfter push n = some t) :
    ∃ i, i < n ∧ push i = some t ∧ ∀ j, j < i → push j = none := by
  induction n with
  | zero => simp [tabsVarAfter] at h
  | succ n ih =>
    cases hp : push n with
    | some m =>
      simp only [tabsVarAfter, hp] at h
      cases hv : tabsVarAfter push n with
      | some t2 =>
        rw [hv] at h
        simp only [tabsPostHandler] at h
        obtain ⟨i, hi, hpi, hmin⟩ := ih (hv.trans (by simpa using h))
        exact ⟨i, Nat.lt_succ_of_lt hi, hpi, hmin⟩
      | none =>
        rw [hv] at h
        simp only [tabsPostHandler] at h
        refine ⟨n, Nat.lt_succ_self n, ?_, tabsVarAfter_none_pushes hv⟩
        rw [hp]
        simpa using h
    | none =>
      simp only [tabsVarAfter, hp] at h
      obtain ⟨i, hi, hpi, hmin⟩ := ih h
      exact ⟨i, Nat.lt_succ_of_lt hi, hpi, hmin⟩

/-- A schedule delivering a single push during the first sleep. -/
def onePush : Nat → Option TabsMessage :=
  fun i => if i = 0 then some [("12", ["https://example.com"])] else none

/-- Witness for the amended C2 at a concrete schedule: the loop exits after one
sleep with exactly the pushed mapping. -/
theorem C2_fresh_push_only_witness :
    tabsVarAfter onePush 1 = some [("12", ["https://example.com"])] ∧
    ∃ i, i < 1 ∧ onePush i = some [("12", ["https://example.com"])] ∧
      ∀ j, j < i → onePush j = none := by
  exact ⟨rfl, C2_fresh_push_only onePush 1 [("12", ["https://example.com"])] rfl⟩

/-! ### C9 — sync with no opened workspace crashes -/

/-- C9: for every persisted state with no workspace marked opened, `sync`
reaches its error branch — reading `.apps` of `openedWorkspaces[0]`, which is
`undefined` — instead of degrading to a no-op; the count guard before it only
emits a log entry (recorded in the event list) and does not prevent the crash,
and nothing is saved. -/
theorem C9_sync_crashes_when_none_opened (workspaces : List Workspace)
    (h : workspaces.filter (fun w => w.isOpened) = []) :
    sync workspaces = ([Event.logExpectedOpened 0], Except.error Err.undefinedDeref) := by
  simp [sync, h]

/-- Witness for C9: a state holding a single workspace that is not opened. -/
theorem C9_sync_crashes_when_none_opened_witness :
    ([Workspace.mk "proj" false [freshChrome]].filter (fun w => w.isOpened) = []) ∧
    sync [Workspace.mk "proj" false [freshChrome]] =
      ([Event.logExpectedOpened 0], Except.error Err.undefinedDeref) := by
  exact ⟨rfl, C9_sync_crashes_when_none_opened _ rfl⟩

/-! ### C10 — pushes are dropped while a mapping is held -/

/-- C10: the `POST /tabs` handler stores the pushed mapping only when none is
held: with a mapping `held` in place every push is acknowledged `"OK"` but
discarded (any sequence of pushes leaves `held` in place), and with no mapping
held the push is stored; so the stored mapping can change only after
`/get-tabs` resets it to `null`. -/
theorem C10_push_dropped_while_held (held body : TabsMessage) (pushes : List TabsMessage) :
    tabsPostHandler (some held) body = (some held, "OK") ∧
    tabsPostHandler none body = (some body, "OK") ∧
    pushes.foldl (fun st m => (tabsPostHandler st m).1) (some held) = some held := by
  refine ⟨rfl, rfl, ?_⟩
  induction pushes with
  | nil => rfl
  | cons m ms ih => simpa [tabsPostHandler] using ih

/-! ### C8 — early abort on an untracked app in the stowed bench -/

/-- C8: when the currently opened workspace's apps are `pre ++ bad :: post`
with every app of `pre` tracked and `bad` untracked, `selectWorkspace` returns
from inside the stow loop at `bad`: the whole trace is the scratchpad moves of
`pre` only (so the apps after `bad` are not stowed, nothing is launched or
moved for the target, and no save happens), no tree query is ever made
(`qIdx = 0`), and the only in-memory change at exit is the stowed workspace's
`isOpened := false` — the target is never marked opened and the state file is
never written (`earlyReturn` is the pre-`saveToFs` exit). -/
theorem C8_early_abort (env : Nat → TreeNode) (workspaces : List Workspace)
    (workspaceName : String) (ti : Nat) (wT : Workspace) (oi : Nat) (wO : Workspace)
    (pre : List App) (bad : App) (post : List App)
    (hT : findWithIdx (fun w => w.name == workspaceName) workspaces = some (ti, wT))
    (hO : findWithIdx (fun w => w.isOpened) workspaces = some (oi, wO))
    (happ : wO.apps = pre ++ bad :: post)
    (hpre : ∀ a ∈ pre, a.i3WindowId.isSome)
    (hbad : bad.i3WindowId = none) :
    selectWorkspace env workspaces workspaceName =
      (⟨0, (pre.filterMap (fun a => a.i3WindowId)).map Event.moveScratch⟩,
       SelectResult.earlyReturn (workspaces.set oi { wO with isOpened := false })) := by
  simp only [selectWorkspace, hT, hO, happ]
  rw [stowLoop_early ⟨0, []⟩ pre bad post hpre hbad]
  simp

/-- A bench with one tracked and one untracked app, currently opened. -/
def mixedOld : Workspace :=
  ⟨"old", true, [⟨"chrome", "1", some 4⟩, ⟨"tmux", "2", none⟩]⟩

/-- The bench being focused in the C8 witness scenario. -/
def newBench : Workspace := ⟨"new", false, [freshChrome]⟩

/-- Witness for C8 on a concrete two-workspace state: the run stows only the
tracked app and aborts at the untracked one. -/
theorem C8_early_abort_witness :
    (findWithIdx (fun w => w.name == "new") [mixedOld, newBench] = some (1, newBench) ∧
     findWithIdx (fun w => w.isOpened) [mixedOld, newBench] = some (0, mixedOld) ∧
     mixedOld.apps = [⟨"chrome", "1", some 4⟩] ++ (⟨"tmux", "2", none⟩ : App) :: [] ∧
     (∀ a ∈ [(⟨"chrome", "1", some 4⟩ : App)], a.i3WindowId.isSome) ∧
     (App.mk "tmux" "2" none).i3WindowId = none) ∧
    selectWorkspace (envConst (rootNode [])) [mixedOld, newBench] "new" =
      (⟨0, ([(⟨"chrome", "1", some 4⟩ : App)].filterMap
          (fun a => a.i3WindowId)).map Event.moveScratch⟩,
       SelectResult.earlyReturn ([mixedOld, newBench].set 0 { mixedOld with isOpened := false })) := by
  refine ⟨⟨by decide, by decide, by decide, by decide, rfl⟩, ?_⟩
  exact C8_early_abort (envConst (rootNode [])) [mixedOld, newBench] "new" 1 newBench 0 mixedOld
    [⟨"chrome", "1", some 4⟩] ⟨"tmux", "2", none⟩ [] (by decide) (by decide) (by decide)
    (by decide) rfl

/-! ### C6 — stow-stage guards -/

/-- A chrome app tracked at the live window id 5. -/
def fiveApp : App := ⟨"chrome", "3", some 5⟩

/-- The single-workspace state used in the C6 scenario: the bench named `w`
is already focused and its one app is tracked. -/
def wsFive : List Workspace := [⟨"w", true, [fiveApp]⟩]

/-- C6 counterexample: focusing the already-focused bench still issues a
scratchpad move.  On `wsFive` (bench `w` focused, its app's window 5 live in
every tree query), `selectWorkspace` on the very same bench emits
`moveScratch 5` — the claimed different-from-target guard does not exist in
the code (`if (currentlyOpenedWorkspace)` alone). -/
theorem C6_same_bench_stow_counterexample :
    selectWorkspace (envConst (rootNode [winNode 5])) wsFive "w" =
      (⟨1, [Event.moveScratch 5, Event.moveWs 5 "3", Event.save]⟩,
       SelectResult.saved wsFive) ∧
    Event.moveScratch 5 ∈
      (selectWorkspace (envConst (rootNode [winNode 5])) wsFive "w").1.trace := by
  decide

/-- C6 as amended: whenever a currently-opened workspace exists — even when it
is the target itself — and all its apps are tracked, the stow stage issues a
scratchpad move for every tracked window id of that workspace, with no
different-from-target guard and no liveness cross-check (the environment `env`
is arbitrary and unqueried here: `moveWindowToScratchPad` is issued whether or
not the id is in any tree); an untracked app instead aborts the loop. -/
theorem C6_stow_unconditional (env : Nat → TreeNode) (workspaces : List Workspace)
    (workspaceName : String) (ti : Nat) (wT : Workspace) (oi : Nat) (wO : Workspace)
    (hT : findWithIdx (fun w => w.name == workspaceName) workspaces = some (ti, wT))
    (hO : findWithIdx (fun w => w.isOpened) workspaces = some (oi, wO))
    (hall : ∀ a ∈ wO.apps, a.i3WindowId.isSome) :
    ∃ rest, ((selectWorkspace env workspaces workspaceName).1).trace =
      (trackedIds wO).map Event.moveScratch ++ rest := by
  simp only [selectWorkspace, hT, hO]
  rw [stowLoop_complete ⟨0, []⟩ wO.apps hall]
  have hstage := @assembleStage_extends env
    ⟨0, [] ++ (wO.apps.filterMap (fun a => a.i3WindowId)).map Event.moveScratch⟩
    (workspaces.set oi { wO with isOpened := false }) ti
    (assembleStage env
      ⟨0, [] ++ (wO.apps.filterMap (fun a => a.i3WindowId)).map Event.moveScratch⟩
      (workspaces.set oi { wO with isOpened := false }) ti).1
    ((assembleStage env
      ⟨0, [] ++ (wO.apps.filterMap (fun a => a.i3WindowId)).map Event.moveScratch⟩
      (workspaces.set oi { wO with isOpened := false }) ti).2) rfl
  obtain ⟨evs, he⟩ := hstage
  exact ⟨evs, by simpa [trackedIds] using he⟩

/-- Witness for the amended C6: on `wsFive`, re-focusing `w` has the stow move
of window 5 as the head of its trace. -/
theorem C6_stow_unconditional_witness :
    (findWithIdx (fun w => w.name == "w") wsFive = some (0, ⟨"w", true, [fiveApp]⟩) ∧
     findWithIdx (fun w => w.isOpened) wsFive = some (0, ⟨"w", true, [fiveApp]⟩) ∧
     (∀ a ∈ (Workspace.mk "w" true [fiveApp]).apps, a.i3WindowId.isSome)) ∧
    ∃ rest, ((selectWorkspace (envConst (rootNode [winNode 5])) wsFive "w").1).trace =
      (trackedIds ⟨"w", true, [fiveApp]⟩).map Event.moveScratch ++ rest := by
  refine ⟨⟨by decide, by decide, by decide⟩, ?_⟩
  exact C6_stow_unconditional (envConst (rootNode [winNode 5])) wsFive "w" 0
    ⟨"w", true, [fiveApp]⟩ 0 ⟨"w", true, [fiveApp]⟩ (by decide) (by decide) (by decide)

/-! ### C7 — launch-failure atomicity -/

/-- C7: whenever a focus run fails because window discovery threw (no new or
too many new windows), the error is the run's result (`failed er` — it
propagates to the caller uncaught), the trace contains no `save` (the state
file is not rewritten by that run), and every scratchpad move in the trace
targets a tracked window of the previously focused workspace — i.e. it belongs
to the stow stage that ran before assembly, so tools assembled earlier in the
same run are never moved to the scratchpad (or otherwise touched) after the
failure. -/
theorem C7_failure_atomicity (env : Nat → TreeNode) (workspaces : List Workspace)
    (workspaceName : String) (s : St) (er : Err)
    (h : selectWorkspace env workspaces workspaceName = (s, SelectResult.failed er)) :
    Event.save ∉ s.trace ∧
    ∀ wid, Event.moveScratch wid ∈ s.trace →
      ∃ oi wO, findWithIdx (fun w => w.isOpened) workspaces = some (oi, wO) ∧
        wid ∈ trackedIds wO := by
  simp only [selectWorkspace] at h
  split at h
  · cases h
  · rename_i ti wT hT
    split at h
    · obtain ⟨evs, he, hk⟩ := assembleStage_failed_events h
      constructor
      · rw [he]
        intro hmem
        simp only [List.mem_append] at hmem
        rcases hmem with hmem | hmem
        · simp at hmem
        · rcases hk _ hmem with ⟨nm, h1⟩ | ⟨i, w, h1⟩ <;> cases h1
      · intro wid hmem
        rw [he] at hmem
        simp only [List.mem_append] at hmem
        rcases hmem with hmem | hmem
        · simp at hmem
        · rcases hk _ hmem with ⟨nm, h1⟩ | ⟨i, w, h1⟩ <;> cases h1
    · rename_i oi wO hO
      split at h
      · cases h
      · rename_i s1 heq
        obtain ⟨evs1, he1, hk1⟩ := stowLoop_events heq
        obtain ⟨evs2, he2, hk2⟩ := assembleStage_failed_events h
        constructor
        · rw [he2, he1]
          intro hmem
          simp only [List.mem_append] at hmem
          rcases hmem with (hmem | hmem) | hmem
          · simp at hmem
          · obtain ⟨wid2, _, hw⟩ := hk1 _ hmem
            cases hw
          · rcases hk2 _ hmem with ⟨nm, hw⟩ | ⟨i, w, hw⟩ <;> cases hw
        · intro wid hmem
          rw [he2, he1] at hmem
          simp only [List.mem_append] at hmem
          rcases hmem with (hmem | hmem) | hmem
          · simp at hmem
          · obtain ⟨wid2, hmem2, hw⟩ := hk1 _ hmem
            cases hw
            exact ⟨oi, wO, hO, by simpa [trackedIds] using hmem2⟩
          · rcases hk2 _ hmem with ⟨nm, hw⟩ | ⟨i, w, hw⟩ <;> cases hw

/-- Witness for C7: a concrete focus run in which discovery finds no new
window; the run fails, saves nothing, and issues no scratchpad moves. -/
theorem C7_failure_atomicity_witness :
    (selectWorkspace (envConst (rootNode [])) [⟨"a", false, [freshChrome]⟩] "a" =
      ((⟨2, [Event.launch "chrome"]⟩ : St), SelectResult.failed Err.noNewWindows)) ∧
    (Event.save ∉ (⟨2, [Event.launch "chrome"]⟩ : St).trace ∧
      ∀ wid, Event.moveScratch wid ∈ (⟨2, [Event.launch "chrome"]⟩ : St).trace →
        ∃ oi wO,
          findWithIdx (fun w => w.isOpened) [(⟨"a", false, [freshChrome]⟩ : Workspace)] =
            some (oi, wO) ∧ wid ∈ trackedIds wO) :=
  ⟨by decide, C7_failure_atomicity (envConst (rootNode [])) [⟨"a", false, [freshChrome]⟩] "a"
    ⟨2, [Event.launch "chrome"]⟩ Err.noNewWindows (by decide)⟩

/-! ### C3 — (claimed) window-discovery polling -/

/-- Environment in which the first post-launch query still shows the old
windows and only the next query would show the new one. -/
def envPoll : Nat → TreeNode :=
  env3 (rootNode [winNode 1, winNode 2]) (rootNode [winNode 1, winNode 2])
    (rootNode [winNode 1, winNode 2, winNode 3])

/-- C3 counterexample: there is no polling loop.  In `envPoll` the launch's
window only shows up in the third `getTree()` answer; `openApp` consumes
exactly two queries (`qIdx = 2`) and fails with the no-new-window error, even
though the diff against the very next query is the non-empty `[3]` — so the
discovery decides failure from a single post-launch query instead of
re-querying until the diff is non-empty or a timeout elapses. -/
theorem C3_single_query_counterexample :
    (openApp envPoll ⟨0, []⟩ freshChrome).2 = Except.error Err.noNewWindows ∧
    (openApp envPoll ⟨0, []⟩ freshChrome).1.qIdx = 2 ∧
    newWindowsOf (findNodeIdsByClass (envPoll 0) "Chromium")
      (findNodeIdsByClass (envPoll 2) "Chromium") = [3] := by decide

/-- C3 as amended: the discovery queries the tree once before the launch and
exactly once after it, and decides success or failure from that single
post-launch snapshot: the entire result of `openApp` started at query index
`k` depends only on the environment's answers at `k` and `k + 1`. -/
theorem C3_two_query_determinism (env env' : Nat → TreeNode) (k : Nat) (tr : List Event)
    (app : App) (h0 : env k = env' k) (h1 : env (k + 1) = env' (k + 1)) :
    openApp env ⟨k, tr⟩ app = openApp env' ⟨k, tr⟩ app := by
  cases ha : app.i3WindowId with
  | none =>
    cases hc : (app.name == "chrome") <;>
      simp [openApp, openAppRest, ha, hc, h0, h1]
  | some wid =>
    cases hc : (app.name == "chrome") <;>
      simp [openApp, openAppRest, ha, hc, h0, h1]

/-- Environment agreeing with `envPoll` on the two queries `openApp` makes but
different afterwards. -/
def envPollAlt : Nat → TreeNode :=
  env3 (rootNode [winNode 1, winNode 2]) (rootNode [winNode 1, winNode 2])
    (rootNode [winNode 9])

/-- Witness for the amended C3: two environments agreeing only on queries 0
and 1 produce identical `openApp` runs. -/
theorem C3_two_query_determinism_witness :
    (envPoll 0 = envPollAlt 0 ∧ envPoll (0 + 1) = envPollAlt (0 + 1)) ∧
    openApp envPoll ⟨0, []⟩ freshChrome = openApp envPollAlt ⟨0, []⟩ freshChrome :=
  ⟨⟨rfl, rfl⟩, C3_two_query_determinism envPoll envPollAlt 0 [] freshChrome rfl rfl⟩

/-! ### C4 — reuse-or-relaunch with stale-id healing -/

/-- A chrome app tracked at window id 0. -/
def zeroApp : App := ⟨"chrome", "3", some 0⟩

/-- Environment whose first query shows window 0 and whose later queries show
windows 0 and 5. -/
def envZero : Nat → TreeNode := env2 (rootNode [winNode 0]) (rootNode [winNode 0, winNode 5])

/-- C4 counterexample: a tracked window id that appears in the fresh tree
query is NOT always reused.  `zeroApp`'s id 0 is in the snapshot, yet `openApp`
discards it and launches a replacement: JavaScript evaluates
`if (prevWindowIds.find(w => w == 0))` on the found value `0`, which is falsy.
The claim's "if its tracked window id appears in a fresh window-manager tree
query it is reused with no launch" fails at this input. -/
theorem C4_zero_id_counterexample :
    0 ∈ findNodeIdsByClass (envZero 0) "Chromium" ∧
    openApp envZero ⟨0, []⟩ zeroApp =
      (⟨2, [Event.launch "chrome"]⟩, Except.ok ⟨"chrome", "3", some 5⟩) := by decide

/-- C4 as amended: if the tracked window id is nonzero and appears in the
fresh tree query, the app is reused unchanged with no launch and no further
query; otherwise, when the id is absent from the snapshot, the stale id is
discarded, a replacement is launched, and the single freshly discovered id `d`
— an id that was not in the pre-launch snapshot, hence never the stale id
carried over blindly — is what gets recorded as the tool's window id. -/
theorem C4_reuse_or_relaunch (env : Nat → TreeNode) (k : Nat) (tr : List Event)
    (app : App) (wid : Nat) (hw : app.i3WindowId = some wid) :
    (wid ≠ 0 → wid ∈ findNodeIdsByClass (env k) "Chromium" →
      openApp env ⟨k, tr⟩ app = (⟨k + 1, tr⟩, Except.ok app)) ∧
    (app.name = "chrome" → wid ∉ findNodeIdsByClass (env k) "Chromium" →
      ∀ d, newWindowsOf (findNodeIdsByClass (env k) "Chromium")
          (findNodeIdsByClass (env (k + 1)) "Chromium") = [d] →
        openApp env ⟨k, tr⟩ app =
          (⟨k + 2, tr ++ [Event.launch "chrome"]⟩,
           Except.ok { app with i3WindowId := some d }) ∧
        d ∉ findNodeIdsByClass (env k) "Chromium") := by
  constructor
  · intro hnz hmem
    simp only [openApp, hw]
    rw [find_self_of_mem hmem]
    simp [truthy, hnz]
  · intro hchrome hnot d hdiff
    constructor
    · simp only [openApp, hw]
      rw [find_none_of_not_mem hnot]
      simp only [truthy, Bool.false_eq_true, if_false]
      simp [openAppRest, hchrome, hdiff]
    · intro hdmem
      have hd : d ∈ newWindowsOf (findNodeIdsByClass (env k) "Chromium")
          (findNodeIdsByClass (env (k + 1)) "Chromium") := by rw [hdiff]; simp
      simp only [newWindowsOf, List.mem_filter] at hd
      simp [hdmem] at hd

/-- Witness for the amended C4: on a live nonzero tracked id the app is reused
with no launch. -/
theorem C4_reuse_or_relaunch_witness :
    fiveApp.i3WindowId = some 5 ∧
    ((5 ≠ 0 → 5 ∈ findNodeIdsByClass (envConst (rootNode [winNode 5]) 0) "Chromium" →
      openApp (envConst (rootNode [winNode 5])) ⟨0, []⟩ fiveApp =
        (⟨0 + 1, []⟩, Except.ok fiveApp)) ∧
     (fiveApp.name = "chrome" →
       5 ∉ findNodeIdsByClass (envConst (rootNode [winNode 5]) 0) "Chromium" →
       ∀ d, newWindowsOf (findNodeIdsByClass (envConst (rootNode [winNode 5]) 0) "Chromium")
           (findNodeIdsByClass (envConst (rootNode [winNode 5]) (0 + 1)) "Chromium") = [d] →
         openApp (envConst (rootNode [winNode 5])) ⟨0, []⟩ fiveApp =
           (⟨0 + 2, [] ++ [Event.launch "chrome"]⟩,
            Except.ok { fiveApp with i3WindowId := some d }) ∧
         d ∉ findNodeIdsByClass (envConst (rootNode [winNode 5]) 0) "Chromium")) :=
  ⟨rfl, C4_reuse_or_relaunch (envConst (rootNode [winNode 5])) 0 [] fiveApp 5 rfl⟩

/-! ### C5 — focus idempotence -/

/-- Overwriting the same index twice keeps only the second write. -/
theorem set_set_same {α : Type} (l : List α) (i : Nat) (a b : α) :
    (l.set i a).set i b = l.set i b := by
  induction l generalizing i with
  | nil => rfl
  | cons x xs ih =>
    cases i with
    | zero => rfl
    | succ n =>
      simp only [List.set]
      rw [ih]

/-- When the environment constantly answers `t` and every app's tracked id is
nonzero and present in `t`, the assemble loop reuses every app unchanged: no
launch, one tree query and one move-to-workspace per app. -/
theorem assembleLoop_reuse (t : TreeNode) (env : Nat → TreeNode) (henv : ∀ n, env n = t) :
    ∀ apps : List App,
      (∀ a ∈ apps, ∃ wid, a.i3WindowId = some wid ∧ wid ≠ 0 ∧
        wid ∈ findNodeIdsByClass t "Chromium") →
      ∀ s : St, assembleLoop env s apps =
        ((⟨s.qIdx + apps.length,
           s.trace ++ apps.map (fun a => Event.moveWs (a.i3WindowId.getD 0) a.i3Workspace)⟩ :
             St),
         Except.ok apps) := by
  intro apps
  induction apps with
  | nil =>
    intro _ s
    simp [assembleLoop]
  | cons a rest ih =>
    intro hlive s
    obtain ⟨wid, hwid, hnz, hmem⟩ := hlive a (by simp)
    have hopen : openApp env s a = ({ s with qIdx := s.qIdx + 1 }, Except.ok a) := by
      simp only [openApp, hwid, henv]
      rw [find_self_of_mem hmem]
      simp [truthy, hnz]
    simp only [assembleLoop, hopen]
    rw [ih (fun x hx => hlive x (by simp [hx])) _]
    simp only [Prod.mk.injEq, St.mk.injEq, List.length_cons, List.map_cons]
    refine ⟨⟨by omega, ?_⟩, trivial⟩
    simp [hwid, List.append_assoc]

/-- C5 counterexample: bench `w` is already focused and its only tracked
window — id 0 — is present in every tree query, yet re-focusing `w` launches a
new chrome process and saves a different snapshot (the id is rewritten to 5):
`prevWindowIds.find(w => w == 0)` evaluates to the falsy number 0, so the live
window is treated as missing. -/
theorem C5_zero_id_counterexample :
    (0 ∈ findNodeIdsByClass (envZero 0) "Chromium" ∧
     0 ∈ findNodeIdsByClass (envZero 1) "Chromium") ∧
    selectWorkspace envZero [⟨"w", true, [zeroApp]⟩] "w" =
      (⟨2, [Event.moveScratch 0, Event.launch "chrome", Event.moveWs 5 "3", Event.save]⟩,
       SelectResult.saved [⟨"w", true, [⟨"chrome", "3", some 5⟩]⟩]) := by decide

/-- C5 as amended: focusing the already-focused bench again, with every
tracked window id nonzero and present in the (unchanged) tree, launches no new
application process and saves the workspace list unchanged. -/
theorem C5_focus_idempotent (t : TreeNode) (env : Nat → TreeNode)
    (workspaces : List Workspace) (workspaceName : String) (ti : Nat) (w : Workspace)
    (henv : ∀ n, env n = t)
    (hT : findWithIdx (fun x => x.name == workspaceName) workspaces = some (ti, w))
    (hO : findWithIdx (fun x => x.isOpened) workspaces = some (ti, w))
    (hlive : ∀ a ∈ w.apps, ∃ wid, a.i3WindowId = some wid ∧ wid ≠ 0 ∧
      wid ∈ findNodeIdsByClass t "Chromium") :
    ∃ s, selectWorkspace env workspaces workspaceName = (s, SelectResult.saved workspaces) ∧
      ∀ nm, Event.launch nm ∉ s.trace := by
  obtain ⟨hget, hopened⟩ := findWithIdx_spec hO
  have hallSome : ∀ a ∈ w.apps, a.i3WindowId.isSome := by
    intro a ha
    obtain ⟨wid, hwid, _, _⟩ := hlive a ha
    simp [hwid]
  have hget1 : (workspaces.set ti { w with isOpened := false }).get? ti =
      some { w with isOpened := false } := get?_set_self hget
  have happs2 : ({ name := w.name, isOpened := true, apps := w.apps } : Workspace) = w := by
    cases w
    simp only [Workspace.isOpened] at hopened
    simp [hopened]
  simp only [selectWorkspace, hT, hO]
  rw [stowLoop_complete ⟨0, []⟩ w.apps hallSome]
  simp only [assembleStage, hget1, Option.getD_some]
  rw [assembleLoop_reuse t env henv w.apps hlive _]
  simp only [set_set_same]
  rw [happs2, set_self_of_get? hget]
  refine ⟨_, rfl, ?_⟩
  intro nm hmem
  simp at hmem

/-- Witness for the amended C5: re-focusing the already-focused `w` whose app
is tracked at the live nonzero id 5 saves the state unchanged with no launch. -/
theorem C5_focus_idempotent_witness :
    ((∀ n : Nat, envConst (rootNode [winNode 5]) n = rootNode [winNode 5]) ∧
     findWithIdx (fun x => x.name == "w") wsFive = some (0, ⟨"w", true, [fiveApp]⟩) ∧
     findWithIdx (fun x => x.isOpened) wsFive = some (0, ⟨"w", true, [fiveApp]⟩) ∧
     (∀ a ∈ (Workspace.mk "w" true [fiveApp]).apps, ∃ wid, a.i3WindowId = some wid ∧
       wid ≠ 0 ∧ wid ∈ findNodeIdsByClass (rootNode [winNode 5]) "Chromium")) ∧
    ∃ s, selectWorkspace (envConst (rootNode [winNode 5])) wsFive "w" =
      (s, SelectResult.saved wsFive) ∧ ∀ nm, Event.launch nm ∉ s.trace := by
  have hlive : ∀ a ∈ (Workspace.mk "w" true [fiveApp]).apps, ∃ wid,
      a.i3WindowId = some wid ∧ wid ≠ 0 ∧
      wid ∈ findNodeIdsByClass (rootNode [winNode 5]) "Chromium" := by
    intro a ha
    simp only [List.mem_singleton] at ha
    subst ha
    exact ⟨5, rfl, by decide, by decide⟩
  exact ⟨⟨fun _ => rfl, by decide, by decide, hlive⟩,
    C5_focus_idempotent (rootNode [winNode 5]) (envConst (rootNode [winNode 5])) wsFive "w"
      0 ⟨"w", true, [fiveApp]⟩ (fun _ => rfl) (by decide) (by decide) hlive⟩

end Workbench
